import Mathlib

/-!
Shallow embedding of the trend ingestion, classification and query engine of
the `tiktok-trending-data` repository (files `src/analysis/database.py`,
`src/analysis/compute_analytics.py`, `src/alerts/push_alerts.py`).

Modelling conventions:
* view/like/share/comment counts are natural numbers;
* growth rates and timestamps are rationals (timestamps measured in hours,
  so the SQL phrase `datetime('now', '-6 hours')` becomes `now - 6`);
* Python dict payloads become a record type whose fields carry the defaults
  `dict.get` supplies (`0`, `''`, `None`);
* the SQLite tables become lists kept in insertion order; `analytics_snapshots`
  is append-only and rows are appended with a non-decreasing clock, so
  insertion order realises the source's `ORDER BY timestamp ASC`;
* a Python exception raised inside the `try` of `insert_or_update_trend`
  aborts the transaction (the `with` block rolls back) and the except-clause
  returns `False`; the one payload-dependent operation in that body that can
  raise is `json.dumps` of the opaque `raw_data`, modelled by the flag
  `raw_serializable` on the payload.
-/

/-- The `ViralityStage` enum of `src/analysis/database.py`. -/
inductive ViralityStage where
  | NEW
  | EARLY_TRACTION
  | STEADY
  | MASSIVE
deriving DecidableEq, Repr

/-- One row of statistics as handled by `calculate_virality_stage`
(the `current_stats` dict built in `insert_or_update_trend`). -/
structure StatRow where
  view_count : ℕ
  like_count : ℕ
  share_count : ℕ
  comment_count : ℕ
deriving DecidableEq, Repr

/-- One historical row as returned by `get_trend_history`
(`SELECT view_count, like_count, share_count, comment_count, timestamp`). -/
structure HistRow where
  view_count : ℕ
  like_count : ℕ
  share_count : ℕ
  comment_count : ℕ
  timestamp : ℚ
deriving DecidableEq, Repr

/-- The growth-rate computation of `calculate_virality_stage`
(`database.py` lines 166-173): `0.0` unless there is historical data whose
most recent row (`historical_stats[-1]`) has a positive `view_count`, in
which case `(view_count - prev_views) / prev_views * 100`. -/
def growthRate (current : StatRow) (historical : List HistRow) : ℚ :=
  match historical.getLast? with
  | none => 0
  | some prev =>
      if 0 < prev.view_count then
        ((current.view_count : ℚ) - (prev.view_count : ℚ)) / (prev.view_count : ℚ) * 100
      else 0

/-- The classification branch of `calculate_virality_stage`
(`database.py` lines 175-192): fixed view-count bands, each with a
growth-rate cutoff that promotes to `EARLY_TRACTION`. -/
def stageOfViews (view_count : ℕ) (growth_rate : ℚ) : ViralityStage :=
  if view_count < 10000 then ViralityStage.NEW
  else if view_count < 100000 then
    if growth_rate > 50 then ViralityStage.EARLY_TRACTION else ViralityStage.NEW
  else if view_count < 1000000 then
    if growth_rate > 20 then ViralityStage.EARLY_TRACTION else ViralityStage.STEADY
  else
    if growth_rate > 10 then ViralityStage.EARLY_TRACTION else ViralityStage.MASSIVE

/-- `TrendsDatabase.calculate_virality_stage` (`database.py` lines 161-192):
computes the growth rate from the most recent historical row, then classifies
by view-count band.  (The source also reads `like_count` at line 164 but
never uses it.) -/
def calculate_virality_stage (current : StatRow) (historical : List HistRow) :
    ViralityStage × ℚ :=
  let g := growthRate current historical
  (stageOfViews current.view_count g, g)

example : calculate_virality_stage ⟨5000, 0, 0, 0⟩ [] = (ViralityStage.NEW, 0) := by
  norm_num [calculate_virality_stage, growthRate, stageOfViews]

example : growthRate ⟨80000, 0, 0, 0⟩ [⟨50000, 0, 0, 0, 0⟩] = 60 := by
  norm_num [growthRate]

example : stageOfViews 50000 60 = ViralityStage.EARLY_TRACTION := by
  norm_num [stageOfViews]

/-- One row of the `trends` table (`database.py` lines 59-78). -/
structure TrendRecord where
  id : String
  title : String
  author : String
  description : String
  timestamp : ℚ
  source : String
  view_count : ℕ
  like_count : ℕ
  share_count : ℕ
  comment_count : ℕ
  music_id : Option String
  virality_stage : ViralityStage
  growth_rate : ℚ
  first_seen : ℚ
  last_updated : ℚ
  raw_data : String
deriving DecidableEq, Repr

/-- One row of the `analytics_snapshots` table (`database.py` lines 124-137). -/
structure Snapshot where
  trend_id : String
  timestamp : ℚ
  view_count : ℕ
  like_count : ℕ
  share_count : ℕ
  comment_count : ℕ
  growth_rate : ℚ
  virality_stage : ViralityStage
deriving DecidableEq, Repr

/-- One row of the `hashtags` table (`database.py` lines 81-89). -/
structure HashtagRow where
  hashtag : String
  trend_id : String
  timestamp : ℚ
deriving DecidableEq, Repr

/-- One row of the `alerts` table (`database.py` lines 140-151), written by
`AlertManager.log_alert` in `src/alerts/push_alerts.py`. -/
structure AlertRow where
  trend_id : String
  alert_type : String
  message : String
  sent_at : ℚ
  webhook_url : String
  success : Bool
deriving DecidableEq, Repr

/-- The persistent SQLite state, each table as a list in insertion order. -/
structure DBState where
  trends : List TrendRecord
  snapshots : List Snapshot
  hashtags : List HashtagRow
  alerts : List AlertRow
deriving DecidableEq, Repr

/-- The freshly initialised database. -/
def emptyDB : DBState := ⟨[], [], [], []⟩

/-- One item payload as consumed by `insert_or_update_trend`: the fields the
source reads out of the `trend_data` dict, with the defaults `dict.get`
supplies for absent keys.  `raw_serializable` records whether
`json.dumps(trend_data.get('raw_data', {}))` succeeds; when it does not, the
exception is caught by the surrounding `try` and the call returns `False`
with the transaction rolled back. -/
structure Payload where
  id : String
  title : String
  author_uniqueId : String
  desc : String
  timestamp : Option ℚ
  source : String
  playCount : ℕ
  diggCount : ℕ
  shareCount : ℕ
  commentCount : ℕ
  music_id : Option String
  hashtags : List String
  raw_serializable : Bool
  raw_data : String
deriving DecidableEq, Repr

/-- `TrendsDatabase.get_trend_history` (`database.py` lines 302-312):
the `analytics_snapshots` rows for one trend, `ORDER BY timestamp ASC`.
Snapshots are appended with a non-decreasing clock, so the insertion order
of the filtered list realises that ordering. -/
def get_trend_history (st : DBState) (trend_id : String) : List HistRow :=
  (st.snapshots.filter (fun s => s.trend_id == trend_id)).map
    (fun s => ⟨s.view_count, s.like_count, s.share_count, s.comment_count, s.timestamp⟩)

/-- The `current_stats` dict built at `database.py` lines 206-212. -/
def currentStats (p : Payload) : StatRow :=
  ⟨p.playCount, p.diggCount, p.shareCount, p.commentCount⟩

/-- The `UPDATE trends SET ...` statement (`database.py` lines 224-247)
applied to one existing row: overwrite every listed column — `first_seen`
is not in the SET list and is preserved — and refresh `last_updated`. -/
def updatedRecord (p : Payload) (now : ℚ) (vg : ViralityStage × ℚ)
    (r : TrendRecord) : TrendRecord :=
  { r with
    title := p.title
    author := p.author_uniqueId
    description := p.desc
    timestamp := p.timestamp.getD now
    source := p.source
    view_count := p.playCount
    like_count := p.diggCount
    share_count := p.shareCount
    comment_count := p.commentCount
    music_id := p.music_id
    virality_stage := vg.1
    growth_rate := vg.2
    last_updated := now
    raw_data := p.raw_data }

/-- The `INSERT INTO trends ...` statement (`database.py` lines 250-274):
a fresh row with `first_seen = last_updated = now`. -/
def newRecord (p : Payload) (now : ℚ) (vg : ViralityStage × ℚ) : TrendRecord :=
  { id := p.id
    title := p.title
    author := p.author_uniqueId
    description := p.desc
    timestamp := p.timestamp.getD now
    source := p.source
    view_count := p.playCount
    like_count := p.diggCount
    share_count := p.shareCount
    comment_count := p.commentCount
    music_id := p.music_id
    virality_stage := vg.1
    growth_rate := vg.2
    first_seen := now
    last_updated := now
    raw_data := p.raw_data }

/-- The existence check plus branch of `insert_or_update_trend`
(`database.py` lines 217-274): update the row whose primary key matches,
or insert a fresh row. -/
def upsertTrends (trends : List TrendRecord) (p : Payload) (now : ℚ)
    (vg : ViralityStage × ℚ) : List TrendRecord :=
  if trends.any (fun r => r.id == p.id) then
    trends.map (fun r => if r.id == p.id then updatedRecord p now vg r else r)
  else
    trends ++ [newRecord p now vg]

/-- The `INSERT INTO analytics_snapshots ...` statement (`database.py`
lines 277-286). -/
def newSnapshot (p : Payload) (now : ℚ) (vg : ViralityStage × ℚ) : Snapshot :=
  ⟨p.id, now, p.playCount, p.diggCount, p.shareCount, p.commentCount, vg.2, vg.1⟩

/-- `TrendsDatabase.insert_or_update_trend` (`database.py` lines 194-300),
at wall-clock time `now`: reject a falsy id; look up the history; classify;
upsert the `trends` row; append one snapshot; append one hashtag row per
hashtag.  Any exception in the body — here, `json.dumps` failing on
`raw_data` — is caught, the transaction rolls back, and the call returns
`False`. -/
def insert_or_update_trend (st : DBState) (p : Payload) (now : ℚ) : DBState × Bool :=
  if p.id = "" then (st, false)
  else if ¬ p.raw_serializable then (st, false)
  else
    let vg := calculate_virality_stage (currentStats p) (get_trend_history st p.id)
    ({ st with
        trends := upsertTrends st.trends p now vg
        snapshots := st.snapshots ++ [newSnapshot p now vg]
        hashtags := st.hashtags ++ p.hashtags.map (fun h => ⟨h, p.id, now⟩) },
      true)

/-- The per-item loop of `TrendsAnalytics.process_trending_items_file`
(`compute_analytics.py` lines 35-37): feed each payload of the batch to
`insert_or_update_trend` at its wall-clock time and count the successes. -/
def process_items (st : DBState) (items : List (Payload × ℚ)) : DBState × ℕ :=
  match items with
  | [] => (st, 0)
  | (p, t) :: rest =>
      let r := insert_or_update_trend st p t
      let rest' := process_items r.1 rest
      (rest'.1, (if r.2 then 1 else 0) + rest'.2)

/-- `TrendsDatabase.get_trending_by_stage` (`database.py` lines 314-324):
`WHERE virality_stage = ? ORDER BY last_updated DESC LIMIT ?`. -/
def get_trending_by_stage (st : DBState) (stage : ViralityStage) (limit : ℕ) :
    List TrendRecord :=
  ((st.trends.filter (fun r => r.virality_stage == stage)).mergeSort
    (fun a b => decide (b.last_updated ≤ a.last_updated))).take limit

/-- `TrendsDatabase.get_breakout_trends` (`database.py` lines 326-339), read
at wall-clock time `now`: `WHERE last_updated > now - hours AND growth_rate >
min_growth_rate AND virality_stage = 'Early Traction' ORDER BY growth_rate
DESC`. -/
def get_breakout_trends (st : DBState) (now : ℚ) (hours : ℚ)
    (min_growth_rate : ℚ) : List TrendRecord :=
  (st.trends.filter (fun r =>
      decide (now - hours < r.last_updated) && decide (min_growth_rate < r.growth_rate)
        && (r.virality_stage == ViralityStage.EARLY_TRACTION))).mergeSort
    (fun a b => decide (b.growth_rate ≤ a.growth_rate))

/-- The shape returned by `TrendsDatabase.get_analytics_summary`
(`database.py` lines 370-376). -/
structure AnalyticsSummary where
  stage_counts : List (ViralityStage × ℕ)
  recent_trends_24h : ℕ
  top_hashtags : List (String × ℕ)
  total_trends : ℕ
  last_updated : ℚ
deriving DecidableEq, Repr

/-- The top-hashtags query of `get_analytics_summary` (`database.py` lines
361-368): hashtag rows of the trailing 24 hours, `GROUP BY hashtag` (groups
listed here in first-occurrence order; the source leaves the tie order
unspecified), `ORDER BY usage_count DESC LIMIT 10`. -/
def topHashtags (st : DBState) (now : ℚ) : List (String × ℕ) :=
  let recent := st.hashtags.filter (fun h => decide (now - 24 < h.timestamp))
  (((recent.map (fun h => h.hashtag)).dedup.map
      (fun t => (t, (recent.filter (fun h => h.hashtag == t)).length))).mergeSort
    (fun a b => decide (b.2 ≤ a.2))).take 10

/-- `TrendsDatabase.get_analytics_summary` (`database.py` lines 341-376),
read at wall-clock time `now`: one `COUNT(*)` per `ViralityStage` member,
the count of trends touched in the trailing 24 hours, the top hashtags, and
`total_trends = sum(stage_counts.values())`. -/
def get_analytics_summary (st : DBState) (now : ℚ) : AnalyticsSummary :=
  let stage_counts :=
    [ViralityStage.NEW, ViralityStage.EARLY_TRACTION,
      ViralityStage.STEADY, ViralityStage.MASSIVE].map
      (fun s => (s, (st.trends.filter (fun r => r.virality_stage == s)).length))
  { stage_counts := stage_counts
    recent_trends_24h :=
      (st.trends.filter (fun r => decide (now - 24 < r.last_updated))).length
    top_hashtags := topHashtags st now
    total_trends := (stage_counts.map Prod.snd).sum
    last_updated := now }

/-- The suppression query of `AlertManager.check_for_breakout_trends`
(`push_alerts.py` lines 259-262), evaluated at wall-clock time `now`:
`SELECT COUNT(*) FROM alerts WHERE trend_id = ? AND sent_at >
datetime('now', '-6 hours') AND success = 1`. -/
def recent_success_alert_count (alerts : List AlertRow) (trend_id : String)
    (now : ℚ) : ℕ :=
  (alerts.filter (fun a =>
    a.trend_id == trend_id && decide (now - 6 < a.sent_at) && a.success)).length

/-- The alert-eligibility filter loop of
`AlertManager.check_for_breakout_trends` (`push_alerts.py` lines 254-267):
keep a candidate only when the alerts log holds no successful entry for its
id within the trailing 6 hours. -/
def filter_eligible (candidates : List TrendRecord) (alerts : List AlertRow)
    (now : ℚ) : List TrendRecord :=
  candidates.filter (fun tr => recent_success_alert_count alerts tr.id now == 0)

/-- `AlertManager.check_for_breakout_trends` (`push_alerts.py` lines
250-267): the breakout query followed by the eligibility filter. -/
def check_for_breakout_trends (st : DBState) (now : ℚ) (hours : ℚ)
    (min_growth_rate : ℚ) : List TrendRecord :=
  filter_eligible (get_breakout_trends st now hours min_growth_rate) st.alerts now

/-- A concrete record used in closed instantiations. -/
def trendX : TrendRecord :=
  ⟨"x", "", "", "", 0, "", 0, 0, 0, 0, none, ViralityStage.NEW, 0, 0, 0, ""⟩

/-- A payload whose opaque raw data `json.dumps` cannot serialise: its
ingestion raises inside the `try` block. -/
def badPayload : Payload :=
  ⟨"bad", "", "", "", none, "", 0, 0, 0, 0, none, [], false, ""⟩

/-- A well-formed payload used in closed instantiations. -/
def okPayload : Payload :=
  ⟨"ok", "", "", "", none, "", 5000, 0, 0, 0, none, [], true, ""⟩

/-- A payload for item `x` with 50 000 views. -/
def pA : Payload :=
  ⟨"x", "", "", "", none, "", 50000, 0, 0, 0, none, [], true, ""⟩

/-- The same item `x` observed again with 80 000 views. -/
def pB : Payload :=
  ⟨"x", "", "", "", none, "", 80000, 0, 0, 0, none, [], true, ""⟩

/-- The store after ingesting `pA` at time 0. -/
def stA : DBState := (insert_or_update_trend emptyDB pA 0).1

/-- The store after further ingesting `pB` at time 1: growth 60 %, so the
item is promoted to Early Traction. -/
def stB : DBState := (insert_or_update_trend stA pB 1).1

/-- The store after re-ingesting the unchanged payload `pB` at time 2. -/
def stC : DBState := (insert_or_update_trend stB pB 2).1

/-- The `trends` row held by `stA`. -/
def recA : TrendRecord :=
  ⟨"x", "", "", "", 0, "", 50000, 0, 0, 0, none, ViralityStage.NEW, 0, 0, 0, ""⟩

/-- C1: the classifier's stage assignment is exactly the fixed view-count
bands with their growth-rate cutoffs — `calculate_virality_stage` returns
the band/cutoff classification of the current view count and the computed
growth rate, and that classification maps (5000, 0) to New, (50000, 60) to
Early Traction, (50000, 10) to New, (500000, 25) to Early Traction,
(500000, 5) to Steady, (2000000, 15) to Early Traction and (2000000, 5) to
Massive. -/
theorem classifier_stage_table :
    (∀ (current : StatRow) (historical : List HistRow),
        calculate_virality_stage current historical =
          (stageOfViews current.view_count (growthRate current historical),
            growthRate current historical)) ∧
    stageOfViews 5000 0 = ViralityStage.NEW ∧
    stageOfViews 50000 60 = ViralityStage.EARLY_TRACTION ∧
    stageOfViews 50000 10 = ViralityStage.NEW ∧
    stageOfViews 500000 25 = ViralityStage.EARLY_TRACTION ∧
    stageOfViews 500000 5 = ViralityStage.STEADY ∧
    stageOfViews 2000000 15 = ViralityStage.EARLY_TRACTION ∧
    stageOfViews 2000000 5 = ViralityStage.MASSIVE := by
  refine ⟨fun current historical => rfl, ?_, ?_, ?_, ?_, ?_, ?_, ?_⟩ <;>
    norm_num [stageOfViews]

/-- C2: the growth rate returned by the classifier is 0 when there is no
prior snapshot or when the most recent prior snapshot's view count is 0,
and otherwise equals `(current_views - previous_views) / previous_views *
100` computed from the most recent prior snapshot. -/
theorem classifier_growth_rate (current : StatRow) (historical : List HistRow) :
    (historical = [] → (calculate_virality_stage current historical).2 = 0) ∧
    (∀ prev, historical.getLast? = some prev → prev.view_count = 0 →
        (calculate_virality_stage current historical).2 = 0) ∧
    (∀ prev, historical.getLast? = some prev → prev.view_count ≠ 0 →
        (calculate_virality_stage current historical).2 =
          ((current.view_count : ℚ) - (prev.view_count : ℚ)) /
            (prev.view_count : ℚ) * 100) := by
  refine ⟨fun h => ?_, fun prev h hv => ?_, fun prev h hv => ?_⟩
  · simp [calculate_virality_stage, growthRate, h]
  · simp [calculate_virality_stage, growthRate, h, hv]
  · simp [calculate_virality_stage, growthRate, h, Nat.pos_of_ne_zero hv]

theorem classifier_growth_rate_witness :
    ([⟨100, 0, 0, 0, 0⟩] : List HistRow).getLast? = some ⟨100, 0, 0, 0, 0⟩ ∧
    (calculate_virality_stage ⟨150, 7, 8, 9⟩ [⟨100, 0, 0, 0, 0⟩]).2 =
      ((150 : ℚ) - (100 : ℚ)) / (100 : ℚ) * 100 :=
  ⟨rfl, (classifier_growth_rate ⟨150, 7, 8, 9⟩ [⟨100, 0, 0, 0, 0⟩]).2.2
    ⟨100, 0, 0, 0, 0⟩ rfl (by norm_num)⟩

/-- C10: the classifier's output depends only on the current view count and
the most recent prior snapshot's view count — two inputs that agree on
those (including on whether a prior snapshot exists) but differ arbitrarily
in like, share and comment counts, current or historical, produce the same
(stage, growth rate) pair. -/
theorem classifier_ignores_engagement (c1 c2 : StatRow) (h1 h2 : List HistRow)
    (hviews : c1.view_count = c2.view_count)
    (hprev : h1.getLast?.map HistRow.view_count = h2.getLast?.map HistRow.view_count) :
    calculate_virality_stage c1 h1 = calculate_virality_stage c2 h2 := by
  have hg : growthRate c1 h1 = growthRate c2 h2 := by
    unfold growthRate
    cases e1 : h1.getLast? with
    | none =>
        cases e2 : h2.getLast? with
        | none => rfl
        | some prev2 => rw [e1, e2] at hprev; simp at hprev
    | some prev1 =>
        cases e2 : h2.getLast? with
        | none => rw [e1, e2] at hprev; simp at hprev
        | some prev2 =>
            rw [e1, e2] at hprev
            simp only [Option.map_some', Option.some.injEq] at hprev
            rw [hviews]
            simp [hprev]
  unfold calculate_virality_stage
  rw [hg, hviews]

theorem classifier_ignores_engagement_witness :
    (⟨5000, 1, 2, 3⟩ : StatRow).view_count = (⟨5000, 40, 50, 60⟩ : StatRow).view_count ∧
    calculate_virality_stage ⟨5000, 1, 2, 3⟩ [⟨200, 11, 12, 13, 0⟩] =
      calculate_virality_stage ⟨5000, 40, 50, 60⟩ [⟨200, 77, 88, 99, 5⟩] :=
  ⟨rfl, classifier_ignores_engagement ⟨5000, 1, 2, 3⟩ ⟨5000, 40, 50, 60⟩
    [⟨200, 11, 12, 13, 0⟩] [⟨200, 77, 88, 99, 5⟩] rfl rfl⟩

/-- C4: `get_breakout_trends` returns exactly the trend records whose
last-updated time lies within the trailing window, whose growth rate is
strictly greater than `min_growth_rate` and whose stage is Early Traction,
ordered by growth rate descending; in particular it never returns a record
whose stage is not Early Traction. -/
theorem breakouts_exact (st : DBState) (now hours min_growth_rate : ℚ) :
    (get_breakout_trends st now hours min_growth_rate).Perm
      (st.trends.filter (fun r =>
        decide (now - hours < r.last_updated) && decide (min_growth_rate < r.growth_rate)
          && (r.virality_stage == ViralityStage.EARLY_TRACTION))) ∧
    (∀ r, r ∈ get_breakout_trends st now hours min_growth_rate ↔
      (r ∈ st.trends ∧ now - hours < r.last_updated ∧
        min_growth_rate < r.growth_rate ∧
        r.virality_stage = ViralityStage.EARLY_TRACTION)) ∧
    (get_breakout_trends st now hours min_growth_rate).Pairwise
      (fun a b => b.growth_rate ≤ a.growth_rate) ∧
    (∀ r ∈ get_breakout_trends st now hours min_growth_rate,
      r.virality_stage = ViralityStage.EARLY_TRACTION) := by
  refine ⟨List.mergeSort_perm _ _, ?_, ?_, ?_⟩
  · intro r
    unfold get_breakout_trends
    rw [List.mem_mergeSort, List.mem_filter]
    simp [and_assoc]
  · unfold get_breakout_trends
    refine List.Pairwise.imp ?_ (List.sorted_mergeSort ?_ ?_ _)
    · exact fun hab => of_decide_eq_true hab
    · intro a b c h1 h2
      exact decide_eq_true
        (le_trans (of_decide_eq_true h2) (of_decide_eq_true h1))
    · intro a b
      simp only [Bool.or_eq_true, decide_eq_true_eq]
      exact le_total _ _
  · intro r hr
    unfold get_breakout_trends at hr
    rw [List.mem_mergeSort, List.mem_filter] at hr
    simp at hr
    exact hr.2.2

/-- C6: with one successful alert-log entry for id X at time T, the
eligibility filter excludes every candidate with id X at any evaluation
time strictly before T + 6 hours, and keeps it at or after T + 6 hours. -/
theorem alert_suppression_window (cands : List TrendRecord)
    (X atype msg url : String) (T now : ℚ) (c : TrendRecord) (hc : c.id = X) :
    (now < T + 6 →
      c ∉ filter_eligible cands [⟨X, atype, msg, T, url, true⟩] now) ∧
    (T + 6 ≤ now → c ∈ cands →
      c ∈ filter_eligible cands [⟨X, atype, msg, T, url, true⟩] now) := by
  constructor
  · intro ht hmem
    unfold filter_eligible at hmem
    rw [List.mem_filter] at hmem
    have h2 := hmem.2
    simp [recent_success_alert_count, hc, show now - 6 < T by linarith] at h2
  · intro ht hmem
    unfold filter_eligible
    rw [List.mem_filter]
    refine ⟨hmem, ?_⟩
    simp [recent_success_alert_count, hc, show ¬ (now - 6 < T) by linarith]

theorem alert_suppression_window_witness :
    trendX ∉ filter_eligible [trendX] [⟨"x", "t", "m", 0, "u", true⟩] 5 ∧
    trendX ∈ filter_eligible [trendX] [⟨"x", "t", "m", 0, "u", true⟩] 6 :=
  ⟨(alert_suppression_window [trendX] "x" "t" "m" "u" 0 5 trendX rfl).1 (by norm_num),
   (alert_suppression_window [trendX] "x" "t" "m" "u" 0 6 trendX rfl).2
     (by norm_num) (by simp)⟩

/-- C9: in the summary returned by `get_analytics_summary`, the sum of the
values of `stage_counts` equals `total_trends`, for every store state — the
source computes `total_trends` as `sum(stage_counts.values())` over the one
count it ran per stage. -/
theorem summary_counts_consistent (st : DBState) (now : ℚ) :
    ((get_analytics_summary st now).stage_counts.map Prod.snd).sum =
      (get_analytics_summary st now).total_trends ∧
    (get_analytics_summary st now).total_trends =
      (st.trends.filter (fun r => r.virality_stage == ViralityStage.NEW)).length +
      ((st.trends.filter (fun r => r.virality_stage == ViralityStage.EARLY_TRACTION)).length +
      ((st.trends.filter (fun r => r.virality_stage == ViralityStage.STEADY)).length +
      (st.trends.filter (fun r => r.virality_stage == ViralityStage.MASSIVE)).length)) := by
  constructor
  · rfl
  · simp [get_analytics_summary]

/-- Unfolding lemma: one step of the batch loop. -/
theorem process_items_cons (st : DBState) (p : Payload) (t : ℚ)
    (rest : List (Payload × ℚ)) :
    process_items st ((p, t) :: rest) =
      ((process_items (insert_or_update_trend st p t).1 rest).1,
        (if (insert_or_update_trend st p t).2 then 1 else 0) +
          (process_items (insert_or_update_trend st p t).1 rest).2) := rfl

/-- A payload whose raw data cannot be serialised is skipped: the exception
is caught, nothing is committed, and the call reports `False`. -/
theorem insert_error_skip (st : DBState) (p : Payload) (t : ℚ)
    (he : p.raw_serializable = false) :
    insert_or_update_trend st p t = (st, false) := by
  unfold insert_or_update_trend
  by_cases hid : p.id = ""
  · simp [hid]
  · simp [hid, he]

/-- C5: any error raised while processing one payload is caught inside the
ingest call, which returns `False` for that payload and leaves the store
untouched; the batch loop then behaves exactly as if the erroneous payload
were absent, so every sibling payload is still processed. -/
theorem batch_error_isolation (st : DBState) (p : Payload) (t : ℚ)
    (he : p.raw_serializable = false) :
    insert_or_update_trend st p t = (st, false) ∧
    ∀ xs ys, process_items st (xs ++ (p, t) :: ys) = process_items st (xs ++ ys) := by
  refine ⟨insert_error_skip st p t he, ?_⟩
  intro xs ys
  induction xs generalizing st with
  | nil =>
      rw [List.nil_append, List.nil_append, process_items_cons,
        insert_error_skip st p t he]
      simp
  | cons x rest ih =>
      rw [List.cons_append, List.cons_append]
      cases x with
      | mk q tq =>
          rw [process_items_cons, process_items_cons, ih]

theorem batch_error_isolation_witness :
    insert_or_update_trend emptyDB badPayload 0 = (emptyDB, false) ∧
    process_items emptyDB ([(okPayload, 0)] ++ (badPayload, 1) :: [(okPayload, 2)]) =
      process_items emptyDB ([(okPayload, 0)] ++ [(okPayload, 2)]) :=
  ⟨(batch_error_isolation emptyDB badPayload 0 rfl).1,
   (batch_error_isolation emptyDB badPayload 1 rfl).2 [(okPayload, 0)] [(okPayload, 2)]⟩

/-- A successful ingestion reports `True`. -/
theorem insert_success (st : DBState) (p : Payload) (t : ℚ)
    (hid : p.id ≠ "") (hraw : p.raw_serializable = true) :
    (insert_or_update_trend st p t).2 = true := by
  unfold insert_or_update_trend
  simp [hid, hraw]

/-- A successful ingestion appends exactly one snapshot, carrying the id of
the ingested payload. -/
theorem insert_snapshots_eq (st : DBState) (p : Payload) (t : ℚ)
    (hid : p.id ≠ "") (hraw : p.raw_serializable = true) :
    (insert_or_update_trend st p t).1.snapshots =
      st.snapshots ++ [newSnapshot p t
        (calculate_virality_stage (currentStats p) (get_trend_history st p.id))] := by
  unfold insert_or_update_trend
  simp [hid, hraw]

/-- A successful ingestion leaves the list of trend ids unchanged when the
id already has a row, and appends the new id otherwise. -/
theorem insert_trend_ids (st : DBState) (p : Payload) (t : ℚ)
    (hid : p.id ≠ "") (hraw : p.raw_serializable = true) :
    (insert_or_update_trend st p t).1.trends.map TrendRecord.id =
      if st.trends.any (fun r => r.id == p.id)
      then st.trends.map TrendRecord.id
      else st.trends.map TrendRecord.id ++ [p.id] := by
  unfold insert_or_update_trend upsertTrends
  simp only [hid, hraw, not_true_eq_false, Bool.not_eq_true, reduceIte]
  split
  · rw [List.map_map]
    refine List.map_congr_left ?_
    intro r _
    by_cases h : r.id = p.id <;> simp [h, updatedRecord]
  · simp [newRecord]

/-- A successful ingestion preserves uniqueness of trend ids. -/
theorem insert_nodup_ids (st : DBState) (p : Payload) (t : ℚ)
    (hid : p.id ≠ "") (hraw : p.raw_serializable = true)
    (h : (st.trends.map TrendRecord.id).Nodup) :
    ((insert_or_update_trend st p t).1.trends.map TrendRecord.id).Nodup := by
  rw [insert_trend_ids st p t hid hraw]
  split
  · exact h
  · rename_i hany
    have hnotin : p.id ∉ st.trends.map TrendRecord.id := by
      intro hmem
      rw [List.mem_map] at hmem
      obtain ⟨r, hr, hrid⟩ := hmem
      apply hany
      rw [List.any_eq_true]
      exact ⟨r, hr, by simp [hrid]⟩
    simp [List.nodup_append, h, hnotin]

/-- A successful ingestion raises by one the snapshot count of the ingested
id and leaves every other id's snapshot count unchanged. -/
theorem insert_snap_count (st : DBState) (p : Payload) (t : ℚ) (i : String)
    (hid : p.id ≠ "") (hraw : p.raw_serializable = true) :
    ((insert_or_update_trend st p t).1.snapshots.filter
        (fun s => s.trend_id == i)).length =
      (st.snapshots.filter (fun s => s.trend_id == i)).length +
        (if p.id = i then 1 else 0) := by
  rw [insert_snapshots_eq st p t hid hraw, List.filter_append, List.length_append]
  congr 1
  by_cases h : p.id = i
  · have hb : (p.id == i) = true := by simp [h]
    simp [List.filter, newSnapshot, hb, h]
  · have hb : (p.id == i) = false := by simp [h]
    simp [List.filter, newSnapshot, hb, h]

/-- A successful ingestion leaves every row of a different id untouched. -/
theorem insert_keeps_other_rows (st : DBState) (p : Payload) (t : ℚ)
    (hid : p.id ≠ "") (hraw : p.raw_serializable = true) :
    ∀ r ∈ st.trends, r.id ≠ p.id →
      r ∈ (insert_or_update_trend st p t).1.trends := by
  intro r hr hne
  unfold insert_or_update_trend upsertTrends
  simp only [hid, hraw, not_true_eq_false, Bool.not_eq_true, reduceIte]
  split
  · rw [List.mem_map]
    exact ⟨r, hr, by simp [hne]⟩
  · exact List.mem_append_left _ hr

/-- Batch shape lemma: over a batch of well-formed payloads, the loop keeps
trend ids unique and adds, per id, exactly one snapshot per payload carrying
that id. -/
theorem process_items_shape (items : List (Payload × ℚ)) :
    ∀ st : DBState,
      (∀ pt ∈ items, pt.1.id ≠ "" ∧ pt.1.raw_serializable = true) →
      ((st.trends.map TrendRecord.id).Nodup →
        ((process_items st items).1.trends.map TrendRecord.id).Nodup) ∧
      ∀ i, ((process_items st items).1.snapshots.filter
          (fun s => s.trend_id == i)).length =
        (st.snapshots.filter (fun s => s.trend_id == i)).length +
          (items.filter (fun pt => pt.1.id == i)).length := by
  induction items with
  | nil =>
      intro st _
      exact ⟨fun h => h, fun i => by simp [process_items]⟩
  | cons x rest ih =>
      intro st hvalid
      cases x with
      | mk p t =>
          have hp := hvalid (p, t) (List.mem_cons_self _ _)
          have ihs := ih (insert_or_update_trend st p t).1
            (fun pt hpt => hvalid pt (List.mem_cons_of_mem _ hpt))
          constructor
          · intro hnodup
            rw [process_items_cons]
            exact ihs.1 (insert_nodup_ids st p t hp.1 hp.2 hnodup)
          · intro i
            rw [process_items_cons]
            have h2 := ihs.2 i
            simp only at h2 ⊢
            rw [h2, insert_snap_count st p t i hp.1 hp.2]
            by_cases h : p.id = i
            · have hb : (p.id == i) = true := by simp [h]
              simp [List.filter_cons, hb, h]
              omega
            · have hb : (p.id == i) = false := by simp [h]
              simp [List.filter_cons, hb, h]

/-- After a successful ingestion the ingested id has a `trends` row. -/
theorem insert_mem_ids (st : DBState) (p : Payload) (t : ℚ)
    (hid : p.id ≠ "") (hraw : p.raw_serializable = true) :
    p.id ∈ (insert_or_update_trend st p t).1.trends.map TrendRecord.id := by
  rw [insert_trend_ids st p t hid hraw]
  split
  · rename_i hany
    rw [List.any_eq_true] at hany
    obtain ⟨r, hr, hrid⟩ := hany
    rw [List.mem_map]
    exact ⟨r, hr, by simpa using hrid⟩
  · simp

/-- The batch loop never deletes a `trends` row's id. -/
theorem process_ids_monotone (items : List (Payload × ℚ)) :
    ∀ st : DBState,
      (∀ pt ∈ items, pt.1.id ≠ "" ∧ pt.1.raw_serializable = true) →
      ∀ i, i ∈ st.trends.map TrendRecord.id →
        i ∈ (process_items st items).1.trends.map TrendRecord.id := by
  induction items with
  | nil => exact fun st _ i h => h
  | cons x rest ih =>
      intro st hvalid i h
      cases x with
      | mk p t =>
          have hp := hvalid (p, t) (List.mem_cons_self _ _)
          rw [process_items_cons]
          apply ih (insert_or_update_trend st p t).1
            (fun q hq => hvalid q (List.mem_cons_of_mem _ hq))
          rw [insert_trend_ids st p t hp.1 hp.2]
          split
          · exact h
          · exact List.mem_append_left _ h

/-- Every id ingested during the batch has a `trends` row afterwards. -/
theorem process_ids_cover (items : List (Payload × ℚ)) :
    ∀ st : DBState,
      (∀ pt ∈ items, pt.1.id ≠ "" ∧ pt.1.raw_serializable = true) →
      ∀ pt ∈ items,
        pt.1.id ∈ (process_items st items).1.trends.map TrendRecord.id := by
  induction items with
  | nil => intro st _ pt h; cases h
  | cons x rest ih =>
      intro st hvalid pt hpt
      cases x with
      | mk p t =>
          have hp := hvalid (p, t) (List.mem_cons_self _ _)
          have hvrest := fun q hq => hvalid q (List.mem_cons_of_mem _ hq)
          rw [process_items_cons]
          rcases List.mem_cons.mp hpt with he | hm
          · rw [he]
            exact process_ids_monotone rest _ hvrest p.id
              (insert_mem_ids st p t hp.1 hp.2)
          · exact ih _ hvrest pt hm

/-- C7: after any sequence of successful ingestions from the fresh store,
the `trends` table holds exactly one row per distinct ingested id (every
ingested id is present, and no id twice), and for every id the
`analytics_snapshots` table holds exactly one snapshot per ingested payload
carrying that id; moreover every successful ingestion appends exactly one
snapshot and leaves rows with other ids untouched. -/
theorem store_shape_invariant (items : List (Payload × ℚ))
    (hvalid : ∀ pt ∈ items, pt.1.id ≠ "" ∧ pt.1.raw_serializable = true) :
    ((process_items emptyDB items).1.trends.map TrendRecord.id).Nodup ∧
    (∀ pt ∈ items,
      pt.1.id ∈ (process_items emptyDB items).1.trends.map TrendRecord.id) ∧
    (∀ i, ((process_items emptyDB items).1.snapshots.filter
        (fun s => s.trend_id == i)).length =
      (items.filter (fun pt => pt.1.id == i)).length) ∧
    (∀ (st : DBState) (p : Payload) (t : ℚ), p.id ≠ "" →
      p.raw_serializable = true →
      (insert_or_update_trend st p t).2 = true ∧
      (insert_or_update_trend st p t).1.snapshots.length =
        st.snapshots.length + 1 ∧
      ∀ r ∈ st.trends, r.id ≠ p.id →
        r ∈ (insert_or_update_trend st p t).1.trends) := by
  have h := process_items_shape items emptyDB hvalid
  refine ⟨h.1 (by simp [emptyDB]), process_ids_cover items emptyDB hvalid,
    fun i => by simpa [emptyDB] using h.2 i, ?_⟩
  intro st p t hid hraw
  exact ⟨insert_success st p t hid hraw,
    by rw [insert_snapshots_eq st p t hid hraw]; simp,
    insert_keeps_other_rows st p t hid hraw⟩

theorem store_shape_invariant_witness :
    ((process_items emptyDB [(pA, 0), (okPayload, 1)]).1.trends.map
      TrendRecord.id).Nodup ∧
    ((process_items emptyDB [(pA, 0), (okPayload, 1)]).1.snapshots.filter
        (fun s => s.trend_id == "x")).length =
      ([(pA, 0), (okPayload, 1)].filter (fun pt => pt.1.id == "x")).length := by
  have h := store_shape_invariant [(pA, 0), (okPayload, 1)] (by decide)
  exact ⟨h.1, h.2.2.1 "x"⟩

/-- C8: a successful ingestion for an already-present id keeps that row's
`first_seen` unchanged (only the first insert sets it) while refreshing
`last_updated` to the ingestion time; consequently, under a clock that never
runs behind the stored rows, `first_seen ≤ last_updated` holds for every row
after every successful ingestion. -/
theorem first_seen_frame (st : DBState) (p : Payload) (t : ℚ)
    (hid : p.id ≠ "") (hraw : p.raw_serializable = true) :
    (∀ r ∈ st.trends, r.id = p.id →
      ∃ r' ∈ (insert_or_update_trend st p t).1.trends,
        r'.id = p.id ∧ r'.first_seen = r.first_seen ∧ r'.last_updated = t) ∧
    ((∀ r ∈ st.trends, r.first_seen ≤ r.last_updated) →
      (∀ r ∈ st.trends, r.first_seen ≤ t) →
      ∀ r' ∈ (insert_or_update_trend st p t).1.trends,
        r'.first_seen ≤ r'.last_updated) := by
  constructor
  · intro r hr hrid
    have hany : (st.trends.any (fun q => q.id == p.id)) = true := by
      rw [List.any_eq_true]
      exact ⟨r, hr, by simp [hrid]⟩
    refine ⟨updatedRecord p t
      (calculate_virality_stage (currentStats p) (get_trend_history st p.id)) r,
      ?_, by simp [updatedRecord, hrid], by simp [updatedRecord], by simp [updatedRecord]⟩
    unfold insert_or_update_trend upsertTrends
    simp only [hid, hraw, not_true_eq_false, Bool.not_eq_true, reduceIte, hany, if_true]
    rw [List.mem_map]
    exact ⟨r, hr, by simp [hrid]⟩
  · intro hinv hle r' hr'
    unfold insert_or_update_trend upsertTrends at hr'
    simp only [hid, hraw, not_true_eq_false, Bool.not_eq_true, reduceIte] at hr'
    by_cases hany : (st.trends.any (fun q => q.id == p.id)) = true
    · rw [if_pos hany, List.mem_map] at hr'
      obtain ⟨r0, hr0, heq⟩ := hr'
      by_cases h0 : r0.id = p.id
      · rw [← heq]
        simp [h0, updatedRecord]
        exact hle r0 hr0
      · rw [← heq]
        simp [h0]
        exact hinv r0 hr0
    · rw [if_neg hany, List.mem_append] at hr'
      cases hr' with
      | inl h => exact hinv r' h
      | inr h =>
          rw [List.mem_singleton] at h
          rw [h]
          simp [newRecord]

theorem first_seen_frame_witness :
    recA ∈ stA.trends ∧
    ∃ r' ∈ (insert_or_update_trend stA pB 1).1.trends,
      r'.id = pB.id ∧ r'.first_seen = recA.first_seen ∧ r'.last_updated = 1 := by
  have hmem : recA ∈ stA.trends := by decide
  exact ⟨hmem, (first_seen_frame stA pB 1 (by decide) rfl).1 recA hmem (by decide)⟩

/-- C3 counterexample: for item `x`, ingest 50 000 views at time 0, then
80 000 views at time 1 (growth 60 % promotes the stored stage to Early
Traction), then re-ingest the identical 80 000-view payload at time 2.
The second identical call succeeds, appends a third snapshot and computes
growth rate 0 — but the stored virality stage does NOT stay unchanged: it
drops from Early Traction back to New, because the stage is recomputed
statelessly and growth 0 no longer clears the 50 % cutoff of the
10 000-100 000 view band. -/
theorem reingest_stage_counterexample :
    stB.trends.map TrendRecord.virality_stage = [ViralityStage.EARLY_TRACTION] ∧
    (insert_or_update_trend stB pB 2).2 = true ∧
    stC.snapshots.length = 3 ∧
    stC.snapshots.getLast?.map Snapshot.growth_rate = some 0 ∧
    stC.trends.map TrendRecord.virality_stage = [ViralityStage.NEW] := by
  have hA : stA = ⟨[recA], [⟨"x", 0, 50000, 0, 0, 0, 0, ViralityStage.NEW⟩], [], []⟩ := by
    decide
  have hB : stB = ⟨[⟨"x", "", "", "", 1, "", 80000, 0, 0, 0, none,
        ViralityStage.EARLY_TRACTION, 60, 0, 1, ""⟩],
      [⟨"x", 0, 50000, 0, 0, 0, 0, ViralityStage.NEW⟩,
       ⟨"x", 1, 80000, 0, 0, 0, 60, ViralityStage.EARLY_TRACTION⟩], [], []⟩ := by
    unfold stB
    rw [hA]
    norm_num [insert_or_update_trend, pB, upsertTrends, updatedRecord, newRecord,
      newSnapshot, currentStats, get_trend_history, calculate_virality_stage,
      growthRate, stageOfViews, recA, List.filter]
    rw [if_neg (show ¬("x" : String) = "" by decide)]
  have hC : stC = ⟨[⟨"x", "", "", "", 2, "", 80000, 0, 0, 0, none,
        ViralityStage.NEW, 0, 0, 2, ""⟩],
      [⟨"x", 0, 50000, 0, 0, 0, 0, ViralityStage.NEW⟩,
       ⟨"x", 1, 80000, 0, 0, 0, 60, ViralityStage.EARLY_TRACTION⟩,
       ⟨"x", 2, 80000, 0, 0, 0, 0, ViralityStage.NEW⟩], [], []⟩ := by
    unfold stC
    rw [hB]
    norm_num [insert_or_update_trend, pB, upsertTrends, updatedRecord, newRecord,
      newSnapshot, currentStats, get_trend_history, calculate_virality_stage,
      growthRate, stageOfViews, List.filter]
    rw [if_neg (show ¬("x" : String) = "" by decide)]
  exact ⟨by rw [hB]; rfl, insert_success stB pB 2 (by decide) rfl,
    by rw [hC]; rfl, by rw [hC]; rfl, by rw [hC]; rfl⟩

/-- C3 (amended): re-ingesting an unchanged payload — one whose metrics
match the most recent snapshot for the id — succeeds with growth rate 0 on
the second call, appends one further snapshot (the store does not
deduplicate by content), and stores the zero-growth stage of the current
view band; that stored stage equals the previous one only when the previous
stage was not itself the product of a growth-rate promotion. -/
theorem reingest_unchanged_amended (st : DBState) (p : Payload) (now : ℚ)
    (hid : p.id ≠ "") (hraw : p.raw_serializable = true)
    (hlast : (get_trend_history st p.id).getLast?.map HistRow.view_count =
      some p.playCount) :
    (insert_or_update_trend st p now).2 = true ∧
    ((insert_or_update_trend st p now).1.snapshots.filter
        (fun s => s.trend_id == p.id)).length =
      (st.snapshots.filter (fun s => s.trend_id == p.id)).length + 1 ∧
    (insert_or_update_trend st p now).1.snapshots.getLast?.map Snapshot.growth_rate =
      some 0 ∧
    ∀ r ∈ (insert_or_update_trend st p now).1.trends, r.id = p.id →
      r.growth_rate = 0 ∧ r.virality_stage = stageOfViews p.playCount 0 := by
  have hgr : growthRate (currentStats p) (get_trend_history st p.id) = 0 := by
    obtain ⟨prev, hprev, hview⟩ : ∃ prev,
        (get_trend_history st p.id).getLast? = some prev ∧
          prev.view_count = p.playCount := by
      cases e : (get_trend_history st p.id).getLast? with
      | none => rw [e] at hlast; simp at hlast
      | some prev =>
          rw [e] at hlast
          simp only [Option.map_some', Option.some.injEq] at hlast
          exact ⟨prev, rfl, hlast⟩
    unfold growthRate
    rw [hprev]
    simp only [hview, currentStats, sub_self, zero_div, zero_mul, ite_self]
  have hvg : calculate_virality_stage (currentStats p) (get_trend_history st p.id) =
      (stageOfViews p.playCount 0, 0) := by
    show (stageOfViews (currentStats p).view_count
        (growthRate (currentStats p) (get_trend_history st p.id)),
      growthRate (currentStats p) (get_trend_history st p.id)) = _
    rw [hgr]
    rfl
  refine ⟨insert_success st p now hid hraw, ?_, ?_, ?_⟩
  · rw [insert_snap_count st p now p.id hid hraw]
    simp
  · rw [insert_snapshots_eq st p now hid hraw, List.getLast?_concat, hvg]
    rfl
  · intro r hr hrid
    unfold insert_or_update_trend upsertTrends at hr
    simp only [hid, hraw, not_true_eq_false, Bool.not_eq_true, reduceIte] at hr
    rw [hvg] at hr
    by_cases hany : (st.trends.any (fun q => q.id == p.id)) = true
    · rw [if_pos hany, List.mem_map] at hr
      obtain ⟨r0, _, heq⟩ := hr
      by_cases h0 : r0.id = p.id
      · rw [← heq]
        simp [h0, updatedRecord]
      · rw [← heq] at hrid
        simp [h0] at hrid
    · rw [if_neg hany, List.mem_append] at hr
      cases hr with
      | inl h =>
          exfalso
          apply hany
          rw [List.any_eq_true]
          exact ⟨r, h, by simp [hrid]⟩
      | inr h =>
          rw [List.mem_singleton] at h
          rw [h]
          simp [newRecord]

theorem reingest_unchanged_amended_witness :
    (insert_or_update_trend stA pA 1).2 = true ∧
    ((insert_or_update_trend stA pA 1).1.snapshots.filter
        (fun s => s.trend_id == pA.id)).length =
      (stA.snapshots.filter (fun s => s.trend_id == pA.id)).length + 1 ∧
    (insert_or_update_trend stA pA 1).1.snapshots.getLast?.map Snapshot.growth_rate =
      some 0 := by
  have h := reingest_unchanged_amended stA pA 1 (by decide) rfl (by decide)
  exact ⟨h.1, h.2.1, h.2.2.1⟩
